import Mathlib

/-!
Verification of the Tweet_Analyzer repository (src/app.py): a Streamlit app
that loads a pickled classifier and TF-IDF vectorizer, cleans input text,
classifies it as "Positive"/"Negative", optionally fetches tweets through the
ntscraper library, and renders colored HTML cards.

Shallow embedding conventions:
  * Python strings are `List Char`; a string literal `s` is embedded as
    `s.data`.
  * The pickled model and vectorizer are opaque: a `Model V` wraps the
    composite `predict ∘ row-extraction` as a function `V → Int` and a
    `Vectorizer V` wraps `transform` on a single text as `List Char → V`,
    for an arbitrary feature type `V`.
  * Streamlit calls (`st.error`, `st.markdown`, ...) are events appended to
    an output trace (`Ev` below); an uncaught Python exception is an
    `Except.error` carrying its message.
  * File opening / `pickle.load` and the network calls are oracles passed in
    as `Except`/`Option` arguments.
-/

namespace TweetAnalyzer

/-- ASCII uppercase letter, the `A-Z` part of the regex `[^a-zA-Z]`. -/
def isUpperAlpha (c : Char) : Bool := 65 ≤ c.toNat && c.toNat ≤ 90

/-- ASCII lowercase letter, the `a-z` part of the regex `[^a-zA-Z]`. -/
def isLowerAlpha (c : Char) : Bool := 97 ≤ c.toNat && c.toNat ≤ 122

/-- A character matched by the regex class `[a-zA-Z]`. -/
def isAsciiAlpha (c : Char) : Bool := isUpperAlpha c || isLowerAlpha c

/-- Python's `str.lower()` on one character of the post-regex text (the text
fed to `.lower()` in `predict_sentiment` only holds ASCII letters and spaces,
so ASCII case mapping is the whole behavior). -/
def toLowerChar (c : Char) : Char :=
  if isUpperAlpha c then Char.ofNat (c.toNat + 32) else c

/-- Whitespace for Python's `str.split()` / `str.strip()` with no argument
(the ASCII whitespace characters; the cleaned text only ever holds `' '`). -/
def isPySpace (c : Char) : Bool :=
  c = ' ' || c = '\t' || c = '\n' || c = '\x0d' || c = '\x0b' || c = '\x0c'

/-- Line 68: `re.sub('[^a-zA-Z]', ' ', text)` — every character not matched
by `[a-zA-Z]` is replaced by a space. -/
def stripNonAlpha (text : List Char) : List Char :=
  text.map (fun c => if isAsciiAlpha c then c else ' ')

/-- The `.lower()` of line 69 applied to the whole string. -/
def lowerStr (text : List Char) : List Char := text.map toLowerChar

theorem dropWhile_length_le (p : Char → Bool) (l : List Char) :
    (l.dropWhile p).length ≤ l.length := by
  induction l with
  | nil => simp [List.dropWhile]
  | cons c cs ih =>
    simp only [List.dropWhile]
    split
    · exact Nat.le_succ_of_le ih
    · simp

/-- The `.split()` of line 69: split on runs of whitespace, dropping empty
pieces (Python's no-argument `str.split`). -/
def splitWords (s : List Char) : List (List Char) :=
  match s with
  | [] => []
  | c :: cs =>
    if isPySpace c then splitWords cs
    else (c :: cs.takeWhile (fun d => !isPySpace d)) ::
      splitWords (cs.dropWhile (fun d => !isPySpace d))
termination_by s.length
decreasing_by
  · simp
  · simp only [List.length_cons]
    exact Nat.lt_succ_of_le (dropWhile_length_le _ _)

/-- Line 70: `[word for word in text if word not in stop_words]`. -/
def removeStopwords (stop_words : List (List Char)) (words : List (List Char)) :
    List (List Char) :=
  words.filter (fun w => !stop_words.contains w)

/-- Line 71: `' '.join(text)`. -/
def joinSpace : List (List Char) → List Char
  | [] => []
  | [w] => w
  | w :: ws => w ++ ' ' :: joinSpace ws

/-- Lines 68–71 of `predict_sentiment` as one cleaning pipeline. -/
def clean (stop_words : List (List Char)) (text : List Char) : List Char :=
  joinSpace (removeStopwords stop_words (splitWords (lowerStr (stripNonAlpha text))))

/-- The pickled classifier, opaque: `predict` composes sklearn's
`model.predict` on a one-row matrix with the `[0]` indexing of line 72, the
label being an integer class. -/
structure Model (V : Type) where
  predict : V → Int

/-- The pickled TF-IDF vectorizer, opaque: `transform` maps the single text of
the one-element list `[text]` of line 72 to its feature row. -/
structure Vectorizer (V : Type) where
  transform : List Char → V

/-- Lines 67–72: clean the text, vectorize, classify; `"Negative"` when the
predicted class is `0`, `"Positive"` otherwise. -/
def predict_sentiment {V : Type} (text : List Char) (model : Model V)
    (vectorizer : Vectorizer V) (stop_words : List (List Char)) : List Char :=
  let text1 := stripNonAlpha text
  let text2 := splitWords (lowerStr text1)
  let text3 := removeStopwords stop_words text2
  let text4 := joinSpace text3
  if model.predict (vectorizer.transform text4) = 0
    then "Negative".data else "Positive".data

/-- Line 75: the card color picked from the sentiment string. -/
def card_color (sentiment : List Char) : List Char :=
  if sentiment = "Positive".data then "#4CAF50".data else "#F44336".data

/-- The f-string of lines 76–81 up to the `{color}` hole. -/
def cardPre : List Char := "\n    <div style=\"background-color: ".data

/-- The f-string between the `{color}` and `{sentiment}` holes. -/
def cardMid1 : List Char :=
  ("; padding: 12px; border-radius: 8px; margin: 10px 0; " ++
   "box-shadow: 0 2px 4px rgba(0,0,0,0.1)\">\n        " ++
   "<h5 style=\"color: white; margin-top: 0;\">").data

/-- The f-string between the `{sentiment}` and `{tweet_text}` holes. -/
def cardMid2 : List Char :=
  (" Sentiment</h5>\n        <p style=\"color: white; margin-bottom: 0;\">").data

/-- The f-string after the `{tweet_text}` hole. -/
def cardSuf : List Char := "</p>\n    </div>\n    ".data

/-- Lines 74–81: the HTML card with the interpolated color, sentiment and
tweet text. -/
def create_card (tweet_text sentiment : List Char) : List Char :=
  cardPre ++ card_color sentiment ++ cardMid1 ++ sentiment ++
    cardMid2 ++ tweet_text ++ cardSuf

/-- One visible Streamlit output or one library call made by `main`. -/
inductive Ev where
  | write_files
  | title (s : List Char)
  | markdown (s : List Char)
  | call_load_stopwords
  | call_load_model_and_vectorizer
  | call_initialize_scraper
  | call_predict (text : List Char)
  | success (s : List Char)
  | warning (s : List Char)
  | error (s : List Char)
  | info (s : List Char)
  | link_button (label url : List Char)
  | text_area_shown
  | text_input_shown
  | spinner (s : List Char)
deriving DecidableEq

/-- Line 25's message. -/
def errLoadMsg (e : List Char) : List Char := "Failed to load model files: ".data ++ e

/-- Lines 16–26: the two `open`/`pickle.load` pairs inside one `try`. The
oracles carry the outcome of each load (`.error` = the exception's message);
the result is the list of displayed messages and the returned pair. -/
def load_model_and_vectorizer {V : Type} (load_model : Except (List Char) (Model V))
    (load_vec : Except (List Char) (Vectorizer V)) :
    List Ev × (Option (Model V) × Option (Vectorizer V)) :=
  match load_model with
  | .error e => ([.error (errLoadMsg e)], (none, none))
  | .ok m =>
    match load_vec with
    | .error e => ([.error (errLoadMsg e)], (none, none))
    | .ok v => ([], (some m, some v))

/-- The argument tuple of one `scraper.get_tweets(...)` call. -/
structure GetTweetsCall where
  query : List Char
  mode : List Char
  number : Nat
  max_retries : Nat
deriving DecidableEq

/-- Line 48: the probe request issued while testing an instance. -/
def init_test_call : GetTweetsCall := ⟨"twitter".data, "user".data, 1, 1⟩

/-- Lines 132–137: the request issued by `main`'s fetch button. -/
def main_fetch_call (username : List Char) : GetTweetsCall :=
  ⟨username, "user".data, 5, 3⟩

/-- Lines 32–37: the hard-coded Nitter instance list. -/
def working_instances : List (List Char) :=
  ["https://nitter.net".data, "https://nitter.it".data,
   "https://nitter.domain.glass".data, "https://nitter.poast.org".data]

/-- Lines 40–53: the `for instance in working_instances` loop. `attempt inst`
is the oracle for one iteration: `some s` when the `Nitter(...)` constructor
and the probe call succeed and the probe is truthy with a `tweets` key,
`none` when the iteration raises (caught by the inner `except`, which
continues) or the probe check fails. Returns the instances attempted, the
displayed events and the scraper found. -/
def try_instances {S : Type} (attempt : List Char → Option S) :
    List (List Char) → List (List Char) × List Ev × Option S
  | [] => ([], [], none)
  | inst :: rest =>
    match attempt inst with
    | some s =>
      ([inst], [.success ("Connected to Nitter instance: ".data ++ inst)], some s)
    | none =>
      let r := try_instances attempt rest
      (inst :: r.1, r.2)

/-- Lines 28–65: try each instance in order; when all fail, construct the
check-skipping fallback scraper (the `fallback` oracle; its `.error` is the
exception reaching the outer `except`). -/
def initialize_scraper {S : Type} (attempt : List Char → Option S)
    (fallback : Except (List Char) S) :
    List (List Char) × List Ev × Option S :=
  match try_instances attempt working_instances with
  | (tried, evs, some s) => (tried, evs, some s)
  | (tried, evs, none) =>
    match fallback with
    | .ok s =>
      (tried, evs ++ [.warning "Using fallback mode with instance check disabled".data],
       some s)
    | .error e =>
      (tried, evs ++ [.error ("Scraper initialization failed: ".data ++ e)], none)

/-- The message of the `AttributeError` Python raises on `None.attr`. -/
def attrErrMsg (attr : List Char) : List Char :=
  "NoneType object has no attribute ".data ++ attr

/-- Line 72 when the model/vectorizer slots may hold the `None` fallback of
line 26: accessing `.predict` on `None` raises, else `.transform` on `None`
raises, else the call is the total `predict_sentiment`. -/
def predict_sentiment_checked {V : Type} (text : List Char) (model : Option (Model V))
    (vectorizer : Option (Vectorizer V)) (stop_words : List (List Char)) :
    Except (List Char) (List Char) :=
  match model with
  | none => .error (attrErrMsg "predict".data)
  | some m =>
    match vectorizer with
    | none => .error (attrErrMsg "transform".data)
    | some v => .ok (predict_sentiment text m v stop_words)

/-- Python's no-argument `str.strip()`. -/
def pyStrip (s : List Char) : List Char :=
  ((s.dropWhile isPySpace).reverse.dropWhile isPySpace).reverse

/-- Lines 97–104, the "Analyze Text" tab: the analyze button, the truthiness
test on `text_input.strip()`, the prediction and the rendered card. The
second component is the message of an uncaught exception (this tab has no
`try`), `none` when the tab finishes. -/
def tab1_events {V : Type} (model : Option (Model V)) (vectorizer : Option (Vectorizer V))
    (stop_words : List (List Char)) (text_input : List Char) (analyze_clicked : Bool) :
    List Ev × Option (List Char) :=
  if analyze_clicked then
    if pyStrip text_input ≠ [] then
      match predict_sentiment_checked text_input model vectorizer stop_words with
      | .error e => ([.text_area_shown, .call_predict text_input], some e)
      | .ok sentiment =>
        ([.text_area_shown, .call_predict text_input,
          .markdown (create_card text_input sentiment)], none)
    else ([.text_area_shown, .warning "Please enter some text to analyze".data], none)
  else ([.text_area_shown], none)

/-- One entry of the response's `tweets` list; only its `text` field is read
(line 143). -/
structure Tweet where
  text : List Char
deriving DecidableEq

/-- Lines 142–145: the render loop over `tweets_data['tweets']`. Returns the
events emitted before any failure and the message of an exception escaping
the loop (a prediction on the `None` fallback), which line 130's `try` will
catch. -/
def render_tweets {V : Type} (model : Option (Model V)) (vectorizer : Option (Vectorizer V))
    (stop_words : List (List Char)) : List Tweet → List Ev × Option (List Char)
  | [] => ([], none)
  | t :: ts =>
    match predict_sentiment_checked t.text model vectorizer stop_words with
    | .error e => ([.call_predict t.text], some e)
    | .ok sentiment =>
      let r := render_tweets model vectorizer stop_words ts
      (.call_predict t.text :: .markdown (create_card t.text sentiment) :: r.1, r.2)

/-- Line 141's message. -/
def foundMsg (n : Nat) : List Char :=
  "Found ".data ++ (toString n).data ++ " recent tweets".data

/-- Line 147's message. -/
def noTweetsMsg : List Char :=
  "No public tweets found. Account may be private or have no tweets.".data

/-- Lines 153–159's `st.info` text (the numbered troubleshooting tips),
condensed to one line. -/
def troubleshootMsg : List Char :=
  ("Troubleshooting tips: 1. Try a different username " ++
   "2. Wait a few minutes and retry 3. The account might be suspended " ++
   "4. Nitter instances may be overloaded").data

/-- Lines 108–119's `st.error` text (the service-unavailable explanation),
condensed to one line. -/
def unavailableMsg : List Char :=
  ("Twitter scraping service is currently unavailable. Possible reasons: " ++
   "All Nitter instances are down; Twitter has blocked Nitter access; " ++
   "Network restrictions.").data

/-- Lines 130–159: the `try` block around the fetch and the render loop and
its `except`. `fetch_result` is the oracle outcome of the `get_tweets` call:
`.error` = it raised, `.ok none` = the response was falsy or had no
`tweets` key, `.ok (some ts)` = its `tweets` list. Exceptions from the
render loop land in the same `except`, after the events already emitted. -/
def fetch_handler {V : Type} (model : Option (Model V)) (vectorizer : Option (Vectorizer V))
    (stop_words : List (List Char)) (username : List Char)
    (fetch_result : Except (List Char) (Option (List Tweet))) :
    List Ev × Option (List Char) :=
  let spin := Ev.spinner ("Fetching tweets from @".data ++ username ++ "...".data)
  match fetch_result with
  | .error e =>
    ([spin, .error ("Error fetching tweets: ".data ++ e), .info troubleshootMsg], none)
  | .ok none => ([spin, .error "Received unexpected response from Nitter".data], none)
  | .ok (some ts) =>
    if ts = [] then ([spin, .warning noTweetsMsg], none)
    else
      match render_tweets model vectorizer stop_words ts with
      | (evs, none) => (spin :: .success (foundMsg ts.length) :: evs, none)
      | (evs, some e) =>
        (spin :: .success (foundMsg ts.length) :: evs ++
          [.error ("Error fetching tweets: ".data ++ e), .info troubleshootMsg], none)

/-- Lines 106–159, the "Analyze Tweets" tab: the unavailable branch when the
scraper is `None`, else the username input, the fetch button and the
handler. The `fetch` oracle maps the request actually issued to its
outcome. -/
def tab2_events {V S : Type} (model : Option (Model V)) (vectorizer : Option (Vectorizer V))
    (stop_words : List (List Char)) (scraper : Option S) (username : List Char)
    (fetch_clicked : Bool)
    (fetch : GetTweetsCall → Except (List Char) (Option (List Tweet))) :
    List Ev × Option (List Char) :=
  match scraper with
  | none =>
    ([.error unavailableMsg,
      .link_button "Check Nitter Status".data
        "https://github.com/zedeus/nitter/wiki/Instances".data], none)
  | some _ =>
    if fetch_clicked then
      if pyStrip username = [] then
        ([.text_input_shown, .warning "Please enter a username".data], none)
      else
        let r := fetch_handler model vectorizer stop_words username
          (fetch (main_fetch_call username))
        (.text_input_shown :: r.1, r.2)
    else ([.text_input_shown], none)

/-- Line 88's title. -/
def titleMsg : List Char := "Twitter Sentiment Analysis 🐦".data

/-- Line 89's subtitle. -/
def subtitleMsg : List Char := "Analyze text or recent tweets from public accounts".data

/-- Lines 83–159: one run of `main`. The directory listing, title and
subtitle come first, then the three loads in order, then the two tabs; an
uncaught exception in tab 1 ends the run (tab 2 never renders). -/
def main_trace {V S : Type} (stop_words : List (List Char))
    (load_model : Except (List Char) (Model V)) (load_vec : Except (List Char) (Vectorizer V))
    (attempt : List Char → Option S) (fallback : Except (List Char) S)
    (text_input : List Char) (analyze_clicked : Bool)
    (username : List Char) (fetch_clicked : Bool)
    (fetch : GetTweetsCall → Except (List Char) (Option (List Tweet))) :
    List Ev × Option (List Char) :=
  let load := load_model_and_vectorizer load_model load_vec
  let scr := initialize_scraper attempt fallback
  let t1 := tab1_events load.2.1 load.2.2 stop_words text_input analyze_clicked
  let tail : List Ev × Option (List Char) :=
    match t1.2 with
    | some e => (t1.1, some e)
    | none =>
      let t2 := tab2_events load.2.1 load.2.2 stop_words scr.2.2 username fetch_clicked fetch
      (t1.1 ++ t2.1, t2.2)
  (Ev.write_files :: Ev.title titleMsg :: Ev.markdown subtitleMsg ::
     Ev.call_load_stopwords :: Ev.call_load_model_and_vectorizer ::
       (load.1 ++ Ev.call_initialize_scraper :: scr.2.1 ++ tail.1), tail.2)

/-- The card payloads (`st.markdown` bodies) among a list of events. -/
def cardsOf (evs : List Ev) : List (List Char) :=
  evs.filterMap (fun e => match e with | .markdown s => some s | _ => none)

/-- The three artifacts `main` loads on lines 91–92. The Python source
contains no statement that assigns to them, to their attributes or to the
stopword list after these lines, so every later operation is embedded
state-passing style: it receives the artifacts and returns them next to its
output. -/
structure Artifacts (V : Type) where
  model : Model V
  vectorizer : Vectorizer V
  stop_words : List (List Char)

/-- Line 101/144's prediction call, state-passing over the artifacts. -/
def predict_sentiment_st {V : Type} (a : Artifacts V) (text : List Char) :
    Artifacts V × List Char :=
  (a, predict_sentiment text a.model a.vectorizer a.stop_words)

/-- The "Analyze Text" tab, state-passing over the artifacts. -/
def tab1_events_st {V : Type} (a : Artifacts V) (text_input : List Char)
    (analyze_clicked : Bool) : Artifacts V × (List Ev × Option (List Char)) :=
  (a, tab1_events (some a.model) (some a.vectorizer) a.stop_words text_input analyze_clicked)

/-- The fetch-and-render block, state-passing over the artifacts. -/
def fetch_handler_st {V : Type} (a : Artifacts V) (username : List Char)
    (fetch_result : Except (List Char) (Option (List Tweet))) :
    Artifacts V × (List Ev × Option (List Char)) :=
  (a, fetch_handler (some a.model) (some a.vectorizer) a.stop_words username fetch_result)

/-! ## Theorems -/

/-- C2. `predict_sentiment` returns exactly one of `"Positive"` and
`"Negative"`: `"Negative"` precisely when the model's prediction on the
cleaned, vectorized text is `0`, `"Positive"` otherwise. -/
theorem predict_sentiment_two_labels : ∀ {V : Type} (text : List Char) (m : Model V)
    (v : Vectorizer V) (sw : List (List Char)),
    (predict_sentiment text m v sw = "Negative".data ∨
      predict_sentiment text m v sw = "Positive".data)
    ∧ (predict_sentiment text m v sw = "Negative".data ↔
        m.predict (v.transform (clean sw text)) = 0) := by
  intro V text m v sw
  have hcl : joinSpace (removeStopwords sw (splitWords (lowerStr (stripNonAlpha text)))) =
      clean sw text := rfl
  by_cases h : m.predict (v.transform (clean sw text)) = 0
  · have hp : predict_sentiment text m v sw = "Negative".data := by
      simp [predict_sentiment, hcl, h]
    exact ⟨Or.inl hp, by rw [hp]; simp [h]⟩
  · have hp : predict_sentiment text m v sw = "Positive".data := by
      simp [predict_sentiment, hcl, h]
    refine ⟨Or.inr hp, ?_⟩
    rw [hp]
    constructor
    · intro hc
      exact absurd hc (by decide)
    · intro hc
      exact absurd hc h

/-- C3. `load_model_and_vectorizer` returns the deserialized pair on success
and, when either load raises, displays the static error message and returns
the `(None, None)` fallback. -/
theorem load_model_and_vectorizer_fallback : ∀ {V : Type} (m : Model V) (v : Vectorizer V)
    (e : List Char) (lv : Except (List Char) (Vectorizer V)),
    load_model_and_vectorizer (Except.ok m) (Except.ok v) = ([], (some m, some v))
    ∧ load_model_and_vectorizer (V := V) (Except.error e) lv =
        ([Ev.error (errLoadMsg e)], (none, none))
    ∧ load_model_and_vectorizer (Except.ok m) (Except.error e) =
        ([Ev.error (errLoadMsg e)], (none, none)) := by
  intro V m v e lv
  exact ⟨rfl, rfl, rfl⟩

/-- C5. `create_card` colors the card `#4CAF50` exactly when the sentiment is
`"Positive"` and `#F44336` otherwise, and the card contains the sentiment
label and the tweet text verbatim. -/
theorem create_card_color_and_content : ∀ (tweet_text sentiment : List Char),
    (card_color sentiment = "#4CAF50".data ↔ sentiment = "Positive".data)
    ∧ (card_color sentiment = "#F44336".data ↔ sentiment ≠ "Positive".data)
    ∧ create_card tweet_text sentiment =
        cardPre ++ card_color sentiment ++ cardMid1 ++ sentiment ++
          cardMid2 ++ tweet_text ++ cardSuf
    ∧ sentiment <:+: create_card tweet_text sentiment
    ∧ tweet_text <:+: create_card tweet_text sentiment := by
  intro tweet_text sentiment
  refine ⟨?_, ?_, rfl, ?_, ?_⟩
  · unfold card_color
    by_cases h : sentiment = "Positive".data <;> simp [h]
  · unfold card_color
    by_cases h : sentiment = "Positive".data <;> simp [h]
  · exact ⟨cardPre ++ card_color sentiment ++ cardMid1,
      cardMid2 ++ tweet_text ++ cardSuf, by simp [create_card]⟩
  · exact ⟨cardPre ++ card_color sentiment ++ cardMid1 ++ sentiment ++ cardMid2,
      cardSuf, by simp [create_card]⟩

/-- C6. The loaded artifacts are read-only after load: the prediction and the
two rendering paths return the artifact record unchanged. -/
theorem artifacts_read_only : ∀ {V : Type} (a : Artifacts V) (text ti u : List Char)
    (clicked : Bool) (fr : Except (List Char) (Option (List Tweet))),
    (predict_sentiment_st a text).1 = a
    ∧ (tab1_events_st a ti clicked).1 = a
    ∧ (fetch_handler_st a u fr).1 = a := by
  intro V a text ti u clicked fr
  exact ⟨rfl, rfl, rfl⟩

theorem render_tweets_cards {V : Type} (m : Model V) (v : Vectorizer V)
    (sw : List (List Char)) (ts : List Tweet) :
    cardsOf (render_tweets (some m) (some v) sw ts).1 =
      ts.map (fun t => create_card t.text (predict_sentiment t.text m v sw))
    ∧ (render_tweets (some m) (some v) sw ts).2 = none := by
  induction ts with
  | nil => exact ⟨rfl, rfl⟩
  | cons t ts ih =>
    simp only [render_tweets, predict_sentiment_checked, cardsOf, List.filterMap_cons,
      List.map_cons]
    simpa [cardsOf] using ih

/-- C7. The fetch in `main` always requests exactly 5 tweets, `main`'s tab 2
consults the scraper only at that request, and on a response carrying a
`tweets` list every tweet in it is classified and rendered as a card, in
order. -/
theorem fetch_requests_five_and_renders_all : ∀ {V S : Type} (m : Model V) (v : Vectorizer V)
    (sw : List (List Char)) (scr : S) (u : List Char) (ts : List Tweet)
    (f g : GetTweetsCall → Except (List Char) (Option (List Tweet))),
    (main_fetch_call u).number = 5
    ∧ cardsOf (fetch_handler (some m) (some v) sw u (Except.ok (some ts))).1 =
        ts.map (fun t => create_card t.text (predict_sentiment t.text m v sw))
    ∧ (fetch_handler (some m) (some v) sw u (Except.ok (some ts))).2 = none
    ∧ (f (main_fetch_call u) = g (main_fetch_call u) →
        tab2_events (some m) (some v) sw (some scr) u true f =
          tab2_events (some m) (some v) sw (some scr) u true g) := by
  intro V S m v sw scr u ts f g
  obtain ⟨hc, hn⟩ := render_tweets_cards m v sw ts
  refine ⟨rfl, ?_, ?_, ?_⟩
  · rcases hts : ts with _ | ⟨t, ts'⟩
    · simp [fetch_handler, cardsOf]
    · rw [hts] at hc hn
      simp only [fetch_handler, if_neg (by simp : ¬(t :: ts' = []))]
      rcases hr : render_tweets (some m) (some v) sw (t :: ts') with ⟨evs, r⟩
      rw [hr] at hc hn
      simp only at hn
      subst hn
      simpa [cardsOf] using hc
  · rcases hts : ts with _ | ⟨t, ts'⟩
    · simp [fetch_handler]
    · rw [hts] at hn
      simp only [fetch_handler, if_neg (by simp : ¬(t :: ts' = []))]
      rcases hr : render_tweets (some m) (some v) sw (t :: ts') with ⟨evs, r⟩
      rw [hr] at hn
      simp only at hn
      subst hn
      simp
  · intro hfg
    simp only [tab2_events]
    rw [hfg]

theorem try_instances_spec {S : Type} (attempt : List Char → Option S) :
    ∀ l : List (List Char),
      (try_instances attempt l).1 <+: l
      ∧ (∀ inst ∈ (try_instances attempt l).1.dropLast, attempt inst = none)
      ∧ ((∀ inst ∈ l, attempt inst = none) → try_instances attempt l = (l, [], none)) := by
  intro l
  induction l with
  | nil =>
    refine ⟨ List.nil_prefix, ?_, fun _ => rfl⟩
    simp [try_instances]
  | cons inst rest ih =>
    obtain ⟨ih1, ih2, ih3⟩ := ih
    cases h : attempt inst with
    | some s =>
      refine ⟨?_, ?_, ?_⟩
      · simp [try_instances, h]
      · simp [try_instances, h]
      · intro hall
        exact absurd h (by simp [hall inst (by simp)])
    | none =>
      refine ⟨?_, ?_, ?_⟩
      · obtain ⟨t, ht⟩ := ih1
        exact ⟨t, by simp [try_instances, h, ht]⟩
      · simp only [try_instances, h]
        intro x hx
        rcases ht : (try_instances attempt rest).1 with _ | ⟨y, ys⟩
        · rw [ht] at hx
          simp at hx
        · rw [ht, List.dropLast_cons₂] at hx
          rcases List.mem_cons.mp hx with hx' | hx'
          · exact hx' ▸ h
          · exact ih2 x (by rw [ht]; exact hx')
      · intro hall
        have hrest := ih3 (fun i hi => hall i (List.mem_cons_of_mem _ hi))
        simp [try_instances, h, hrest]

/-- C4, as stated, is false: `initialize_scraper` does loop over alternative
endpoints. When every instance attempt fails, it attempts all four Nitter
instances — more than one endpoint. -/
theorem initialize_scraper_tries_four_instances :
    (initialize_scraper (S := Unit) (fun _ => none) (Except.ok ())).1 = working_instances
    ∧ ¬ ((initialize_scraper (S := Unit) (fun _ => none) (Except.ok ())).1.length ≤ 1) := by
  exact ⟨rfl, by decide⟩

/-- C4 (amended). The retry counts forwarded to the external `get_tweets`
are the unmodified literals 1 (instance probe) and 3 (main fetch); but
`initialize_scraper` does loop over the fixed list of four alternative
Nitter endpoints: it attempts a prefix of `working_instances`, every
attempted endpoint before the last one failed, and when all four fail the
result falls back to the check-skipping scraper. -/
theorem initialize_scraper_instance_loop : ∀ {S : Type} (attempt : List Char → Option S)
    (fb : Except (List Char) S) (u : List Char),
    (main_fetch_call u).max_retries = 3
    ∧ init_test_call.max_retries = 1
    ∧ (initialize_scraper attempt fb).1 <+: working_instances
    ∧ (∀ inst ∈ (initialize_scraper attempt fb).1.dropLast, attempt inst = none)
    ∧ ((∀ inst ∈ working_instances, attempt inst = none) →
        (initialize_scraper attempt fb).1 = working_instances
        ∧ (initialize_scraper attempt fb).2.2 = fb.toOption) := by
  intro S attempt fb u
  obtain ⟨h1, h2, h3⟩ := try_instances_spec attempt working_instances
  have htr : (initialize_scraper attempt fb).1 = (try_instances attempt working_instances).1 := by
    rcases ht : try_instances attempt working_instances with ⟨tried, evs, r⟩
    cases r <;> cases fb <;> simp [initialize_scraper, ht]
  refine ⟨rfl, rfl, htr ▸ h1, htr ▸ h2, ?_⟩
  intro hall
  refine ⟨htr.trans (by rw [h3 hall]), ?_⟩
  cases fb <;> simp [initialize_scraper, h3 hall, Except.toOption]

/-- C9. After `load_model_and_vectorizer` falls back to `(None, None)`,
`main`'s text tab still calls `predict_sentiment` with `model = None` and
`vectorizer = None` on any non-whitespace input, and the call raises the
`AttributeError` of `.predict` on `None` uncaught: the tab emits no card and
no handled error, and the whole run ends with that exception. -/
theorem none_fallback_predict_uncaught : ∀ {V : Type} (sw : List (List Char))
    (text e : List Char) (lv : Except (List Char) (Vectorizer V))
    (attempt : List Char → Option Unit) (fb : Except (List Char) Unit)
    (u : List Char) (fc : Bool)
    (fetch : GetTweetsCall → Except (List Char) (Option (List Tweet))),
    (load_model_and_vectorizer (V := V) (Except.error e) lv).2 = (none, none)
    ∧ (pyStrip text ≠ [] →
        tab1_events (V := V) none none sw text true =
          ([Ev.text_area_shown, Ev.call_predict text], some (attrErrMsg "predict".data)))
    ∧ (pyStrip text ≠ [] →
        (main_trace (V := V) (S := Unit) sw (Except.error e) lv attempt fb
            text true u fc fetch).2 = some (attrErrMsg "predict".data)) := by
  intro V sw text e lv attempt fb u fc fetch
  refine ⟨rfl, ?_, ?_⟩
  · intro h
    simp [tab1_events, h, predict_sentiment_checked]
  · intro h
    simp [main_trace, load_model_and_vectorizer, tab1_events, h, predict_sentiment_checked]

/-- C8. In every run of `main`, the `load_stopwords` and
`load_model_and_vectorizer` calls (trace positions 3 and 4) come before any
`predict_sentiment` call: an event `call_predict` can only sit at a strictly
later position. -/
theorem loads_precede_predict : ∀ {V S : Type} (sw : List (List Char))
    (lm : Except (List Char) (Model V)) (lv : Except (List Char) (Vectorizer V))
    (attempt : List Char → Option S) (fb : Except (List Char) S)
    (ti : List Char) (ac : Bool) (un : List Char) (fc : Bool)
    (fetch : GetTweetsCall → Except (List Char) (Option (List Tweet)))
    (i : Nat) (t : List Char),
    (main_trace sw lm lv attempt fb ti ac un fc fetch).1[i]? = some (Ev.call_predict t) →
    (main_trace sw lm lv attempt fb ti ac un fc fetch).1[3]? = some Ev.call_load_stopwords
    ∧ (main_trace sw lm lv attempt fb ti ac un fc fetch).1[4]? =
        some Ev.call_load_model_and_vectorizer
    ∧ 3 < i ∧ 4 < i := by
  intro V S sw lm lv attempt fb ti ac un fc fetch i t h
  obtain ⟨rest, hrest⟩ : ∃ rest,
      (main_trace sw lm lv attempt fb ti ac un fc fetch).1 =
        Ev.write_files :: Ev.title titleMsg :: Ev.markdown subtitleMsg ::
          Ev.call_load_stopwords :: Ev.call_load_model_and_vectorizer :: rest := ⟨_, rfl⟩
  rw [hrest] at h
  rw [hrest]
  refine ⟨by simp, by simp, ?_, ?_⟩ <;>
    rcases i with _ | _ | _ | _ | _ | i <;> simp at h ⊢

/-- Witness for `loads_precede_predict`: a concrete run whose trace holds a
prediction event at position 8, after the loads at positions 3 and 4. -/
theorem loads_precede_predict_witness :
    (main_trace (V := Unit) (S := Unit) [] (Except.ok ⟨fun _ => 0⟩)
        (Except.ok ⟨fun _ => ()⟩) (fun _ => some ()) (Except.ok ())
        "hi".data true [] false (fun _ => Except.ok none)).1[3]? =
      some Ev.call_load_stopwords
    ∧ (main_trace (V := Unit) (S := Unit) [] (Except.ok ⟨fun _ => 0⟩)
        (Except.ok ⟨fun _ => ()⟩) (fun _ => some ()) (Except.ok ())
        "hi".data true [] false (fun _ => Except.ok none)).1[4]? =
      some Ev.call_load_model_and_vectorizer
    ∧ 3 < 8 ∧ 4 < 8 :=
  loads_precede_predict [] (Except.ok ⟨fun _ => 0⟩) (Except.ok ⟨fun _ => ()⟩)
    (fun _ => some ()) (Except.ok ()) "hi".data true [] false
    (fun _ => Except.ok none) 8 "hi".data (by rfl)

theorem map_fix {α : Type} (f : α → α) (l : List α) (h : ∀ c ∈ l, f c = c) :
    l.map f = l := by
  induction l with
  | nil => rfl
  | cons c cs ih =>
    simp only [List.map_cons]
    rw [h c (by simp), ih (fun d hd => h d (by simp [hd]))]

theorem takeWhile_append_all (p : Char → Bool) (w x : List Char)
    (h : ∀ c ∈ w, p c = true) : (w ++ x).takeWhile p = w ++ x.takeWhile p := by
  induction w with
  | nil => rfl
  | cons c cs ih =>
    simp only [List.cons_append, List.takeWhile_cons, h c (by simp)]
    rw [ih (fun d hd => h d (by simp [hd]))]
    simp

theorem dropWhile_append_all (p : Char → Bool) (w x : List Char)
    (h : ∀ c ∈ w, p c = true) : (w ++ x).dropWhile p = x.dropWhile p := by
  induction w with
  | nil => rfl
  | cons c cs ih =>
    simp only [List.cons_append, List.dropWhile_cons, h c (by simp)]
    exact ih (fun d hd => h d (by simp [hd]))

theorem splitWords_space_cons (c : Char) (t : List Char) (hc : isPySpace c = true) :
    splitWords (c :: t) = splitWords t := by
  rw [splitWords]
  simp [hc]

theorem splitWords_word_sep (c : Char) (w t : List Char)
    (hc : isPySpace c = false) (hw : ∀ d ∈ w, isPySpace d = false) :
    splitWords (c :: (w ++ ' ' :: t)) = (c :: w) :: splitWords t := by
  rw [splitWords]
  simp only [hc, Bool.false_eq_true, if_false]
  rw [takeWhile_append_all _ w _ (fun d hd => by simp [hw d hd]),
    dropWhile_append_all _ w _ (fun d hd => by simp [hw d hd])]
  have hsp : isPySpace ' ' = true := by decide
  simp only [List.takeWhile_cons, List.dropWhile_cons, hsp]
  simp [splitWords_space_cons _ _ hsp]

theorem splitWords_single_word (c : Char) (w : List Char)
    (hc : isPySpace c = false) (hw : ∀ d ∈ w, isPySpace d = false) :
    splitWords (c :: w) = [c :: w] := by
  have h1 := takeWhile_append_all (fun d => !isPySpace d) w []
    (fun d hd => by simp [hw d hd])
  have h2 := dropWhile_append_all (fun d => !isPySpace d) w []
    (fun d hd => by simp [hw d hd])
  rw [List.append_nil] at h1 h2
  rw [splitWords]
  simp only [hc, Bool.false_eq_true, if_false, h1, h2]
  simp [splitWords]

theorem splitWords_joinSpace (ws : List (List Char))
    (h : ∀ w ∈ ws, w ≠ [] ∧ ∀ c ∈ w, isPySpace c = false) :
    splitWords (joinSpace ws) = ws := by
  induction ws with
  | nil => simp [joinSpace, splitWords]
  | cons w ws ih =>
    obtain ⟨hne, hns⟩ := h w (by simp)
    rcases w with _ | ⟨c, w'⟩
    · exact absurd rfl hne
    · have hc : isPySpace c = false := hns c (by simp)
      have hw' : ∀ d ∈ w', isPySpace d = false := fun d hd => hns d (by simp [hd])
      rcases ws with _ | ⟨w2, ws'⟩
      · simpa [joinSpace] using splitWords_single_word c w' hc hw'
      · have hrest : ∀ v ∈ w2 :: ws', v ≠ [] ∧ ∀ c ∈ v, isPySpace c = false :=
          fun v hv => h v (by simp [hv])
        calc splitWords (joinSpace ((c :: w') :: w2 :: ws'))
            = splitWords (c :: (w' ++ ' ' :: joinSpace (w2 :: ws'))) := by
              simp [joinSpace]
          _ = (c :: w') :: splitWords (joinSpace (w2 :: ws')) :=
              splitWords_word_sep c w' _ hc hw'
          _ = (c :: w') :: (w2 :: ws') := by rw [ih hrest]

theorem mem_stripNonAlpha (t : List Char) :
    ∀ c ∈ stripNonAlpha t, isAsciiAlpha c = true ∨ c = ' ' := by
  intro c hc
  obtain ⟨a, _, ha⟩ := List.mem_map.mp hc
  by_cases h : isAsciiAlpha a = true
  · left
    rw [← ha]
    simp [h]
  · right
    rw [← ha]
    simp [h]

theorem toLowerChar_toNat (c : Char) (h : isUpperAlpha c = true) :
    (toLowerChar c).toNat = c.toNat + 32 := by
  simp only [toLowerChar, h, if_true]
  have hv : (c.toNat + 32).isValidChar := by
    simp only [isUpperAlpha, Bool.and_eq_true, decide_eq_true_eq] at h
    left
    omega
  rw [Char.ofNat, dif_pos hv]
  rfl

theorem toLowerChar_lower (c : Char) (h : isAsciiAlpha c = true ∨ c = ' ') :
    isLowerAlpha (toLowerChar c) = true ∨ toLowerChar c = ' ' := by
  by_cases hu : isUpperAlpha c = true
  · left
    have := toLowerChar_toNat c hu
    simp only [isUpperAlpha, Bool.and_eq_true, decide_eq_true_eq] at hu
    simp only [isLowerAlpha, this, Bool.and_eq_true, decide_eq_true_eq]
    omega
  · have hfix : toLowerChar c = c := by simp [toLowerChar, hu]
    rcases h with h | h
    · left
      rw [hfix]
      simp only [isAsciiAlpha, Bool.or_eq_true] at h
      rcases h with h | h
      · exact absurd h hu
      · exact h
    · right
      rw [hfix, h]

theorem toLowerChar_fix (c : Char) (h : isLowerAlpha c = true ∨ c = ' ') :
    toLowerChar c = c := by
  have hu : ¬ isUpperAlpha c = true := by
    rcases h with h | h
    · simp only [isLowerAlpha, Bool.and_eq_true, decide_eq_true_eq] at h
      simp only [isUpperAlpha, Bool.and_eq_true, decide_eq_true_eq, not_and]
      omega
    · rw [h]
      decide
  simp [toLowerChar, hu]

theorem mem_lowerStr_of_alpha (t : List Char)
    (ht : ∀ c ∈ t, isAsciiAlpha c = true ∨ c = ' ') :
    ∀ c ∈ lowerStr t, isLowerAlpha c = true ∨ c = ' ' := by
  intro c hc
  obtain ⟨a, ha, hac⟩ := List.mem_map.mp hc
  rw [← hac]
  exact toLowerChar_lower a (ht a ha)

theorem lower_not_space (c : Char) (h : isLowerAlpha c = true) : isPySpace c = false := by
  simp only [isLowerAlpha, Bool.and_eq_true, decide_eq_true_eq] at h
  have h1 : ¬ c = ' ' := fun he => by subst he; revert h; decide
  have h2 : ¬ c = '\t' := fun he => by subst he; revert h; decide
  have h3 : ¬ c = '\n' := fun he => by subst he; revert h; decide
  have h4 : ¬ c = '\x0d' := fun he => by subst he; revert h; decide
  have h5 : ¬ c = '\x0b' := fun he => by subst he; revert h; decide
  have h6 : ¬ c = '\x0c' := fun he => by subst he; revert h; decide
  simp [isPySpace, h1, h2, h3, h4, h5, h6]

theorem mem_splitWords_wf (s : List Char) : ∀ w ∈ splitWords s,
    w ≠ [] ∧ ∀ c ∈ w, isPySpace c = false := by
  induction s using splitWords.induct with
  | case1 => simp [splitWords]
  | case2 c cs hc ih =>
    rw [splitWords_space_cons c cs hc]
    exact ih
  | case3 c cs hc ih =>
    intro w hw
    rw [splitWords] at hw
    simp only [Bool.not_eq_true] at hc
    rw [if_neg (by simp [hc])] at hw
    rcases List.mem_cons.mp hw with hw' | hw'
    · subst hw'
      refine ⟨by simp, ?_⟩
      intro d hd
      rcases List.mem_cons.mp hd with hd' | hd'
      · exact hd' ▸ hc
      · have := List.mem_takeWhile_imp hd'
        simpa using this
    · exact ih w hw'

theorem mem_splitWords_mem (s : List Char) : ∀ w ∈ splitWords s, ∀ c ∈ w, c ∈ s := by
  induction s using splitWords.induct with
  | case1 => simp [splitWords]
  | case2 c cs hc ih =>
    rw [splitWords_space_cons c cs hc]
    intro w hw d hd
    exact List.mem_cons_of_mem c (ih w hw d hd)
  | case3 c cs hc ih =>
    intro w hw d hd
    rw [splitWords] at hw
    simp only [Bool.not_eq_true] at hc
    rw [if_neg (by simp [hc])] at hw
    rcases List.mem_cons.mp hw with hw' | hw'
    · subst hw'
      rcases List.mem_cons.mp hd with hd' | hd'
      · simp [hd']
      · exact List.mem_cons_of_mem c (( List.takeWhile_prefix _).subset hd')
    · exact List.mem_cons_of_mem c ((List.dropWhile_suffix _).subset (ih w hw' d hd))

theorem mem_joinSpace (ws : List (List Char)) :
    ∀ c ∈ joinSpace ws, c = ' ' ∨ ∃ w ∈ ws, c ∈ w := by
  induction ws with
  | nil => simp [joinSpace]
  | cons w ws ih =>
    rcases ws with _ | ⟨w2, ws'⟩
    · intro c hc
      right
      exact ⟨w, by simp, by simpa [joinSpace] using hc⟩
    · intro c hc
      simp only [joinSpace] at hc
      rcases List.mem_append.mp hc with hc' | hc'
      · right
        exact ⟨w, by simp, hc'⟩
      · rcases List.mem_cons.mp hc' with hc'' | hc''
        · left
          exact hc''
        · rcases ih c hc'' with h | ⟨v, hv, hcv⟩
          · left
            exact h
          · right
            exact ⟨v, by simp [List.mem_cons.mp hv], hcv⟩

/-- Every character of a cleaned text is an ASCII lowercase letter or a
single separating space. -/
theorem mem_clean (sw : List (List Char)) (s : List Char) :
    ∀ c ∈ clean sw s, isLowerAlpha c = true ∨ c = ' ' := by
  intro c hc
  rcases mem_joinSpace _ c hc with h | ⟨w, hw, hcw⟩
  · right
    exact h
  · have hws : w ∈ splitWords (lowerStr (stripNonAlpha s)) :=
      List.mem_of_mem_filter hw
    have hcs : c ∈ lowerStr (stripNonAlpha s) :=
      mem_splitWords_mem _ w hws c hcw
    exact mem_lowerStr_of_alpha _ (mem_stripNonAlpha s) c hcs

/-- C10. The cleaning pipeline of `predict_sentiment` is idempotent:
cleaning an already-cleaned text changes nothing. -/
theorem clean_idempotent : ∀ (sw : List (List Char)) (s : List Char),
    clean sw (clean sw s) = clean sw s := by
  intro sw s
  have hchars := mem_clean sw s
  have h1 : stripNonAlpha (clean sw s) = clean sw s := by
    apply map_fix
    intro c hc
    rcases hchars c hc with h | h
    · simp [isAsciiAlpha, h]
    · subst h
      decide
  have h2 : lowerStr (clean sw s) = clean sw s := by
    apply map_fix
    intro c hc
    exact toLowerChar_fix c (hchars c hc)
  have hwf : ∀ w ∈ removeStopwords sw (splitWords (lowerStr (stripNonAlpha s))),
      w ≠ [] ∧ ∀ c ∈ w, isPySpace c = false :=
    fun w hw => mem_splitWords_wf _ w (List.mem_of_mem_filter hw)
  have h3 : splitWords (clean sw s) =
      removeStopwords sw (splitWords (lowerStr (stripNonAlpha s))) :=
    splitWords_joinSpace _ hwf
  have h4 : removeStopwords sw
        (removeStopwords sw (splitWords (lowerStr (stripNonAlpha s)))) =
      removeStopwords sw (splitWords (lowerStr (stripNonAlpha s))) := by
    apply List.filter_eq_self.mpr
    intro w hw
    simp only [removeStopwords] at hw
    exact (List.mem_filter.mp hw).2
  show joinSpace (removeStopwords sw (splitWords (lowerStr (stripNonAlpha (clean sw s))))) =
    clean sw s
  rw [h1, h2, h3, h4]
  rfl

theorem zip_map_all (l : List Char) (f : Char → Char) :
    ((l.zip (l.map f)).all fun p => p.2 == f p.1) = true := by
  induction l with
  | nil => rfl
  | cons c cs ih => simpa using ih

/-- C1. `predict_sentiment` cleans its input by the fixed pipeline in source
order — replace every non-ASCII-letter by a space (a length-preserving,
position-wise map), lowercase and split on whitespace (into nonempty words),
drop exactly the stopword-list members, rejoin with single spaces — and
classifies the vectorized cleaned text. -/
theorem predict_sentiment_cleaning_pipeline : ∀ {V : Type} (text : List Char) (m : Model V)
    (v : Vectorizer V) (sw : List (List Char)),
    predict_sentiment text m v sw =
      (if m.predict (v.transform (clean sw text)) = 0
        then "Negative".data else "Positive".data)
    ∧ clean sw text =
        joinSpace (removeStopwords sw (splitWords (lowerStr (stripNonAlpha text))))
    ∧ (stripNonAlpha text).length = text.length
    ∧ ((text.zip (stripNonAlpha text)).all fun p =>
        p.2 == if isAsciiAlpha p.1 then p.1 else ' ') = true
    ∧ ((splitWords (lowerStr (stripNonAlpha text))).all fun w => !w.isEmpty) = true
    ∧ ((removeStopwords sw (splitWords (lowerStr (stripNonAlpha text)))).all
        fun w => !sw.contains w) = true := by
  intro V text m v sw
  refine ⟨rfl, rfl, by simp [stripNonAlpha], zip_map_all text _, ?_, ?_⟩
  · apply List.all_eq_true.mpr
    intro w hw
    have hne := (mem_splitWords_wf _ w hw).1
    simpa using hne
  · apply List.all_eq_true.mpr
    intro w hw
    simp only [removeStopwords] at hw
    simpa using (List.mem_filter.mp hw).2

end TweetAnalyzer
